import Mathlib

/-!
Shallow embedding of `helix-term/src/ui/text_decorations.rs`: the
`Decoration` capability, the `DecorationManager` dispatch loops, and the
two concrete decorations (`Cursor`, `CopilotDecoration`).

Machine integers (`usize`, `u16`) are modelled as `Nat`; the explicit
Rust casts `as u16` are modelled with `% 2 ^ 16`.  Collaborator types
that live elsewhere in the repository (`TextRenderer`, `LinePos`,
`FormattedGrapheme`, `DocumentFormatter`, `Style`, `CursorCache`) are
modelled from the specification, as noted on each definition.
-/

namespace HelixTextDecorations

/-- Rust's `usize::MAX`, used by the source as the sentinel anchor meaning
"inactive for the remainder of this pass". -/
def USIZE_MAX : Nat := 2 ^ 64 - 1

/-- Rust's `as u16` cast: truncation to 16 bits. -/
def toU16 (n : Nat) : Nat := n % 2 ^ 16

/-- Modelled from the spec: a display style, opaque at this layer
(`helix_view::theme::Style` is outside the provided sources). -/
abbrev Style := Nat

/-- Modelled from the spec: a visual position `{row, col}` as produced by
the external formatter. -/
structure Position where
  row : Nat
  col : Nat
  deriving DecidableEq

/-- Modelled from the spec: one formatted grapheme — source character
index, visual position, and the raw rendered unit (one `Char` here). -/
structure FormattedGrapheme where
  raw : Char
  char_idx : Nat
  visual_pos : Position
  deriving DecidableEq

/-- Modelled from the spec: per-visual-line position data supplied by the
host — document line index and visual line index in the viewport. -/
structure LinePos where
  doc_line : Nat
  visual_line : Nat
  deriving DecidableEq

/-- One call to the renderer's draw primitive, recorded in order. -/
structure DrawCall where
  raw : Char
  style : Style
  row : Nat
  col : Nat
  deriving DecidableEq

/-- Modelled from the spec: the renderer interface consumed by this core —
viewport height, horizontal scroll offset, a column-visibility predicate,
and a primitive to draw one styled grapheme (logged in `drawn`). -/
structure TextRenderer where
  viewport_height : Nat
  col_offset : Nat
  column_in_bounds : Nat → Bool
  drawn : List DrawCall

/-- Modelled from the spec: the renderer's draw primitive appends one
draw call to the log. -/
def TextRenderer.draw_decoration_grapheme (r : TextRenderer) (raw : Char)
    (style : Style) (row col : Nat) : TextRenderer :=
  { r with drawn := r.drawn ++ [⟨raw, style, row, col⟩] }

/-- Modelled from the spec: the formatting configuration; only the
viewport width is relevant to this core. -/
structure TextFormat where
  viewport_width : Nat

/-- Modelled from the spec: `helix_core::doc_formatter::DocumentFormatter`
(outside the provided sources) — given a format configuration and a span
of text, with an empty annotation set, produces the sequence of
positioned graphemes, soft-wrapping at the viewport width. -/
def DocumentFormatter.format (fmt : TextFormat) (text : List Char) :
    List FormattedGrapheme :=
  text.enum.map fun p =>
    { raw := p.2
      char_idx := p.1
      visual_pos :=
        if fmt.viewport_width = 0 then ⟨0, p.1⟩
        else ⟨p.1 / fmt.viewport_width, p.1 % fmt.viewport_width⟩ }

/-- Rust's `str::split('\n')` on a character list: `n` separators yield
`n + 1` pieces (a trailing newline yields a trailing empty piece). -/
def splitLines : List Char → List (List Char)
  | [] => [[]]
  | c :: rest =>
    match splitLines rest with
    | [] => [[]]
    | l :: ls => if c = '\n' then [] :: l :: ls else (c :: l) :: ls

/-- The `Decoration` trait.  A decoration is a state type together with
the five hooks; each default value below is the trait's default method
body (`reset_pos` returns the inactive sentinel, `skip_concealed_anchor`
delegates to `reset_pos`, `decorate_grapheme` returns the sentinel, the
render hooks do nothing). -/
structure DecorationImpl (σ : Type) where
  decorate_line : σ → TextRenderer → LinePos → σ × TextRenderer :=
    fun s r _ => (s, r)
  render_virt_lines : σ → TextRenderer → LinePos → Nat → σ × TextRenderer × Nat :=
    fun s r _ _ => (s, r, 0)
  reset_pos : σ → Nat → σ × Nat := fun s _ => (s, USIZE_MAX)
  skip_concealed_anchor : σ → Nat → σ × Nat := fun s c => reset_pos s c
  decorate_grapheme : σ → TextRenderer → FormattedGrapheme → σ × TextRenderer × Nat :=
    fun s r _ => (s, r, USIZE_MAX)

/-- A `Box<dyn Decoration>`: some state type, its hook table, and the
current state. -/
structure BoxedDecoration where
  St : Type
  impl : DecorationImpl St
  state : St

/-- `DecorationManager`: the ordered registry of `(decoration, anchor)`
pairs (the `usize` component of the source's `Vec` entries). -/
structure DecorationManager where
  decorations : List (BoxedDecoration × Nat)

/-- `DecorationManager::add_decoration`: push onto the registry with
initial anchor `0`. -/
def DecorationManager.add_decoration (m : DecorationManager)
    (d : BoxedDecoration) : DecorationManager :=
  { decorations := m.decorations ++ [(d, 0)] }

/-- `DecorationManager::prepare_for_rendering`: broadcast `reset_pos` to
every decoration, storing each returned anchor. -/
def DecorationManager.prepare_for_rendering (m : DecorationManager)
    (first_visible_char : Nat) : DecorationManager :=
  { decorations := m.decorations.map fun e =>
      let p := e.1.impl.reset_pos e.1.state first_visible_char
      ({ e.1 with state := p.1 }, p.2) }

/-- One recorded hook invocation of the per-decoration comparison loop in
`DecorationManager::decorate_grapheme`: for each call, the anchor it was
entered with and the anchor it returned. -/
inductive HookEvent where
  | skip (anchorBefore anchorAfter : Nat)
  | hook (anchorBefore anchorAfter : Nat)
  deriving DecidableEq

/-- The per-decoration `loop` body of `DecorationManager::decorate_grapheme`
(source lines 115–126), instrumented with the list of hook invocations it
performs.  The source loop can diverge if a hook fails to advance the
anchor, so the embedding takes explicit fuel and returns `none` when the
fuel runs out. -/
def decorateGraphemeLoop {σ : Type} (impl : DecorationImpl σ)
    (g : FormattedGrapheme) :
    Nat → σ → TextRenderer → Nat → Option (σ × TextRenderer × Nat × List HookEvent)
  | 0, _, _, _ => none
  | fuel + 1, s, r, anchor =>
    match compare anchor g.char_idx with
    | .lt =>
      let p := impl.skip_concealed_anchor s g.char_idx
      match decorateGraphemeLoop impl g fuel p.1 r p.2 with
      | none => none
      | some (s', r', a', evs) => some (s', r', a', .skip anchor p.2 :: evs)
    | .eq =>
      let p := impl.decorate_grapheme s r g
      match decorateGraphemeLoop impl g fuel p.1 p.2.1 p.2.2 with
      | none => none
      | some (s', r', a', evs) => some (s', r', a', .hook anchor p.2.2 :: evs)
    | .gt => some (s, r, anchor, [])

/-- The fold of `decorateGraphemeLoop` over the registry, i.e. the outer
`for` of `DecorationManager::decorate_grapheme`. -/
def decorateGraphemeEntries (fuel : Nat) (g : FormattedGrapheme) :
    List (BoxedDecoration × Nat) → TextRenderer →
    Option (List (BoxedDecoration × Nat) × TextRenderer)
  | [], r => some ([], r)
  | e :: rest, r =>
    match decorateGraphemeLoop e.1.impl g fuel e.1.state r e.2 with
    | none => none
    | some (s', r', a', _evs) =>
      match decorateGraphemeEntries fuel g rest r' with
      | none => none
      | some (rest', r'') => some (({ e.1 with state := s' }, a') :: rest', r'')

/-- `DecorationManager::decorate_grapheme`. -/
def DecorationManager.decorate_grapheme (fuel : Nat) (m : DecorationManager)
    (r : TextRenderer) (g : FormattedGrapheme) :
    Option (DecorationManager × TextRenderer) :=
  match decorateGraphemeEntries fuel g m.decorations r with
  | none => none
  | some (ds, r') => some ({ decorations := ds }, r')

/-- The fold of the line hook over the registry, i.e.
`DecorationManager::decorate_line`. -/
def decorateLineEntries (pos : LinePos) :
    List (BoxedDecoration × Nat) → TextRenderer →
    List (BoxedDecoration × Nat) × TextRenderer
  | [], r => ([], r)
  | e :: rest, r =>
    let p := e.1.impl.decorate_line e.1.state r pos
    let q := decorateLineEntries pos rest p.2
    (({ e.1 with state := p.1 }, e.2) :: q.1, q.2)

/-- `DecorationManager::decorate_line`. -/
def DecorationManager.decorate_line (m : DecorationManager)
    (r : TextRenderer) (pos : LinePos) : DecorationManager × TextRenderer :=
  let q := decorateLineEntries pos m.decorations r
  ({ decorations := q.1 }, q.2)

/-- One invocation of a decoration's `render_virt_lines` hook as performed
by the manager: the `virt_off` it was passed, the viewport height at the
time of the guard check, and the row count it returned. -/
structure VirtCall where
  virt_off : Nat
  height : Nat
  returned : Nat
  deriving DecidableEq

/-- The loop body of `DecorationManager::render_virtual_lines` (source
lines 137–143), instrumented with the list of hook invocations: starting
from the given running offset, each decoration is invoked unless
`pos.visual_line + virt_off >= renderer.viewport.height`, in which case
the loop breaks and the remaining entries are left untouched. -/
def renderVirtLinesGo (pos : LinePos) :
    List (BoxedDecoration × Nat) → TextRenderer → Nat →
    List (BoxedDecoration × Nat) × TextRenderer × List VirtCall
  | [], r, _ => ([], r, [])
  | e :: rest, r, virt_off =>
    if r.viewport_height ≤ pos.visual_line + virt_off then (e :: rest, r, [])
    else
      let p := e.1.impl.render_virt_lines e.1.state r pos virt_off
      let q := renderVirtLinesGo pos rest p.2.1 (virt_off + p.2.2)
      (({ e.1 with state := p.1 }, e.2) :: q.1, q.2.1,
        ⟨virt_off, r.viewport_height, p.2.2⟩ :: q.2.2)

/-- `DecorationManager::render_virtual_lines`: the running offset starts
at 1 so the text line itself is never overwritten. -/
def DecorationManager.render_virtual_lines (m : DecorationManager)
    (r : TextRenderer) (pos : LinePos) : DecorationManager × TextRenderer :=
  let q := renderVirtLinesGo pos m.decorations r 1
  ({ decorations := q.1 }, q.2.1)

/-- Modelled from the spec: the frame-scoped single-slot caret output cell
(`helix_view::editor::CursorCache`, outside the provided sources). -/
structure CursorCache where
  cell : Option Position
  deriving DecidableEq

/-- The `Cursor` decoration: the shared output cell and the primary
cursor's character position. -/
structure Cursor where
  cache : CursorCache
  primary_cursor : Nat
  deriving DecidableEq

/-- `Cursor::reset_pos`. -/
def Cursor.reset_pos (c : Cursor) (pos : Nat) : Nat :=
  if pos ≤ c.primary_cursor then c.primary_cursor else USIZE_MAX

/-- `Cursor::decorate_grapheme`: record `(row, col - col_offset)` in the
cache when the grapheme's visual column is in bounds, then return the
inactive sentinel. -/
def Cursor.decorate_grapheme (c : Cursor) (r : TextRenderer)
    (g : FormattedGrapheme) : Cursor × TextRenderer × Nat :=
  if r.column_in_bounds g.visual_pos.col then
    let position := { g.visual_pos with col := g.visual_pos.col - r.col_offset }
    ({ c with cache := ⟨some position⟩ }, r, USIZE_MAX)
  else (c, r, USIZE_MAX)

/-- The `impl Decoration for Cursor` hook table: `reset_pos` and
`decorate_grapheme` overridden, the rest trait defaults. -/
def Cursor.impl : DecorationImpl Cursor :=
  { reset_pos := fun s p => (s, Cursor.reset_pos s p)
    decorate_grapheme := fun s r g => Cursor.decorate_grapheme s r g }

/-- A `Cursor` boxed as a registry entry. -/
def Cursor.asDecoration (c : Cursor) : BoxedDecoration :=
  { St := Cursor, impl := Cursor.impl, state := c }

/-- The `CopilotDecoration` state: style, suggestion text, target document
row/column, and the viewport width used to reformat the suggestion. -/
structure CopilotDecoration where
  style : Style
  text : List Char
  row : Nat
  col : Nat
  view_width : Nat

/-- `CopilotDecoration::render_virt_lines` (source lines 204–237): when on
the target row, count the suggestion's lines after the first, then render
each of them reformatted at the stored viewport width, drawing at row
`pos.visual_line + grapheme.visual_pos.row as u16 + idx as u16` (note the
`_virt_off` argument is unused by the source), and return the count as
`u16`. -/
def CopilotDecoration.render_virt_lines (d : CopilotDecoration)
    (r : TextRenderer) (pos : LinePos) (_virt_off : Nat) : TextRenderer × Nat :=
  if pos.doc_line ≠ d.row then (r, 0)
  else
    let lines := (splitLines d.text).enum.drop 1
    let n_lines := lines.length
    let text_fmt : TextFormat := { viewport_width := d.view_width }
    let r' := lines.foldl
      (fun racc p =>
        (DocumentFormatter.format text_fmt p.2).foldl
          (fun racc2 g =>
            racc2.draw_decoration_grapheme g.raw d.style
              (pos.visual_line + toU16 g.visual_pos.row + toU16 p.1)
              (toU16 g.visual_pos.col))
          racc)
      r
    (r', toU16 n_lines)

/-- `CopilotDecoration::decorate_line` (source lines 239–271): when on the
target row, reformat only the suggestion's first line at the stored
viewport width and draw each grapheme whose character index is at least
the target column. -/
def CopilotDecoration.decorate_line (d : CopilotDecoration)
    (r : TextRenderer) (pos : LinePos) : TextRenderer :=
  if d.row ≠ pos.doc_line then r
  else
    let first_line := (splitLines d.text).headD []
    let gs := DocumentFormatter.format { viewport_width := d.view_width } first_line
    gs.foldl
      (fun racc g =>
        if g.char_idx < d.col then racc
        else racc.draw_decoration_grapheme g.raw d.style
          (pos.visual_line + toU16 g.visual_pos.row) (toU16 g.visual_pos.col))
      r

/-- The `impl Decoration for CopilotDecoration` hook table: the two render
hooks overridden, the rest trait defaults. -/
def CopilotDecoration.impl : DecorationImpl CopilotDecoration :=
  { decorate_line := fun s r pos => (s, CopilotDecoration.decorate_line s r pos)
    render_virt_lines := fun s r pos off =>
      let p := CopilotDecoration.render_virt_lines s r pos off
      (s, p.1, p.2) }

/-- A `CopilotDecoration` boxed as a registry entry. -/
def CopilotDecoration.asDecoration (d : CopilotDecoration) : BoxedDecoration :=
  { St := CopilotDecoration, impl := CopilotDecoration.impl, state := d }

/-- A concrete renderer used by the concrete instantiations below: height
10, no horizontal scroll, no column visible. -/
def sampleRenderer : TextRenderer :=
  { viewport_height := 10, col_offset := 0
    column_in_bounds := fun _ => false, drawn := [] }

/-- A concrete renderer whose columns `2 ≤ col` are visible, scrolled
right by 2. -/
def sampleRenderer2 : TextRenderer :=
  { viewport_height := 10, col_offset := 2
    column_in_bounds := fun col => decide (2 ≤ col), drawn := [] }

/-- A concrete cursor decoration: empty cache, primary cursor at 5. -/
def sampleCursor : Cursor := { cache := ⟨none⟩, primary_cursor := 5 }

/-- A concrete grapheme at character index 5, visual position (0, 3). -/
def sampleGrapheme : FormattedGrapheme :=
  { raw := 'x', char_idx := 5, visual_pos := ⟨0, 3⟩ }

/-- A concrete inline suggestion: text `"a\nb"` anchored at document row
0, column 0, reformatted at viewport width 80. -/
def sampleCopilot : CopilotDecoration :=
  { style := 0, text := ['a', '\n', 'b'], row := 0, col := 0, view_width := 80 }

/-- The two decorations above registered in order, as a concrete registry. -/
def sampleEntries : List (BoxedDecoration × Nat) :=
  [(CopilotDecoration.asDecoration sampleCopilot, 0),
    (Cursor.asDecoration sampleCursor, 0)]

/-- C7: `Cursor::reset_pos(pos)` returns the tracked primary cursor
position when `pos <= primary_cursor`, and returns the inactive sentinel
otherwise, so a cursor lying before the visible region is never revisited
during that pass. -/
theorem cursor_reset_pos_primary_or_sentinel (c : Cursor) (pos : Nat) :
    (pos ≤ c.primary_cursor → Cursor.reset_pos c pos = c.primary_cursor) ∧
    (c.primary_cursor < pos → Cursor.reset_pos c pos = USIZE_MAX) := by
  refine ⟨fun h => ?_, fun h => ?_⟩
  · rw [Cursor.reset_pos, if_pos h]
  · rw [Cursor.reset_pos, if_neg (by omega)]

theorem cursor_reset_pos_primary_or_sentinel_witness :
    Cursor.reset_pos sampleCursor 3 = 5 :=
  (cursor_reset_pos_primary_or_sentinel sampleCursor 3).1 (by decide)

/-- C5: `Cursor::decorate_grapheme` writes `(visual row, visual column -
horizontal scroll offset)` into the cursor cache exactly when the
grapheme's visual column is within the renderer's visible column bounds,
leaves the cache untouched otherwise, and always returns the inactive
sentinel. -/
theorem cursor_decorate_grapheme_cache (c : Cursor) (r : TextRenderer)
    (g : FormattedGrapheme) :
    (Cursor.decorate_grapheme c r g).2.2 = USIZE_MAX ∧
    (r.column_in_bounds g.visual_pos.col = true →
      (Cursor.decorate_grapheme c r g).1.cache =
        ⟨some ⟨g.visual_pos.row, g.visual_pos.col - r.col_offset⟩⟩ ∧
      (Cursor.decorate_grapheme c r g).2.1 = r) ∧
    (r.column_in_bounds g.visual_pos.col = false →
      Cursor.decorate_grapheme c r g = (c, r, USIZE_MAX)) := by
  rcases h : r.column_in_bounds g.visual_pos.col <;>
    simp [Cursor.decorate_grapheme, h]

theorem cursor_decorate_grapheme_cache_witness :
    (Cursor.decorate_grapheme sampleCursor sampleRenderer2 sampleGrapheme).1.cache =
      ⟨some ⟨0, 1⟩⟩ ∧
    (Cursor.decorate_grapheme sampleCursor sampleRenderer2 sampleGrapheme).2.1 =
      sampleRenderer2 :=
  (cursor_decorate_grapheme_cache sampleCursor sampleRenderer2 sampleGrapheme).2.1 rfl

/-- C9: `DecorationManager::add_decoration` appends the decoration to the
registry with stored anchor 0, and `prepare_for_rendering` sets every
registered decoration's stored anchor to the value returned by that
decoration's `reset_pos(first_visible_char)`, in registration order. -/
theorem manager_add_appends_prepare_resets (m : DecorationManager)
    (d : BoxedDecoration) (c : Nat) :
    (m.add_decoration d).decorations = m.decorations ++ [(d, 0)] ∧
    (m.prepare_for_rendering c).decorations.map Prod.snd =
      m.decorations.map (fun e => (e.1.impl.reset_pos e.1.state c).2) := by
  refine ⟨rfl, ?_⟩
  simp only [DecorationManager.prepare_for_rendering]
  rw [List.map_map]
  exact List.map_congr_left fun e _ => rfl

/-- C1: In the per-decoration comparison loop of
`DecorationManager::decorate_grapheme`, every `skip_concealed_anchor` call
happens with the current anchor strictly below the grapheme's character
index, every `decorate_grapheme` hook call happens exactly when the
current anchor equals the grapheme's character index, the loop exits with
an anchor strictly above the character index, and when the stored anchor
is already greater the decoration is left untouched with no calls made. -/
theorem decorate_grapheme_loop_hook_on_equality {σ : Type}
    (impl : DecorationImpl σ) (g : FormattedGrapheme) (fuel : Nat)
    (s : σ) (r : TextRenderer) (anchor : Nat) :
    (∀ s' r' a' evs,
      decorateGraphemeLoop impl g fuel s r anchor = some (s', r', a', evs) →
        (∀ b c, HookEvent.skip b c ∈ evs → b < g.char_idx) ∧
        (∀ b c, HookEvent.hook b c ∈ evs → b = g.char_idx) ∧
        g.char_idx < a') ∧
    (g.char_idx < anchor → 0 < fuel →
      decorateGraphemeLoop impl g fuel s r anchor = some (s, r, anchor, [])) := by
  induction fuel generalizing s r anchor with
  | zero =>
    exact ⟨fun s' r' a' evs h => by simp [decorateGraphemeLoop] at h,
      fun _ h => absurd h (Nat.lt_irrefl 0)⟩
  | succ n ih =>
    constructor
    · intro s' r' a' evs h
      rcases Nat.lt_trichotomy anchor g.char_idx with hlt | heq | hgt
      · simp only [decorateGraphemeLoop, Nat.compare_eq_lt.mpr hlt] at h
        cases hrec : decorateGraphemeLoop impl g n
            (impl.skip_concealed_anchor s g.char_idx).1 r
            (impl.skip_concealed_anchor s g.char_idx).2 with
        | none => rw [hrec] at h; simp at h
        | some q =>
          obtain ⟨s0, r0, a0, evs0⟩ := q
          rw [hrec] at h
          simp only [Option.some_inj, Prod.mk.injEq] at h
          obtain ⟨rfl, rfl, rfl, rfl⟩ := h
          obtain ⟨IH1, IH2, IH3⟩ := (ih _ r _).1 s0 r0 a0 evs0 hrec
          refine ⟨?_, ?_, IH3⟩
          · intro b c hmem
            rcases List.mem_cons.mp hmem with hhead | htail
            · injection hhead with hb hc
              subst hb
              exact hlt
            · exact IH1 b c htail
          · intro b c hmem
            rcases List.mem_cons.mp hmem with hhead | htail
            · exact HookEvent.noConfusion hhead
            · exact IH2 b c htail
      · simp only [decorateGraphemeLoop, Nat.compare_eq_eq.mpr heq] at h
        cases hrec : decorateGraphemeLoop impl g n
            (impl.decorate_grapheme s r g).1
            (impl.decorate_grapheme s r g).2.1
            (impl.decorate_grapheme s r g).2.2 with
        | none => rw [hrec] at h; simp at h
        | some q =>
          obtain ⟨s0, r0, a0, evs0⟩ := q
          rw [hrec] at h
          simp only [Option.some_inj, Prod.mk.injEq] at h
          obtain ⟨rfl, rfl, rfl, rfl⟩ := h
          obtain ⟨IH1, IH2, IH3⟩ := (ih _ _ _).1 s0 r0 a0 evs0 hrec
          refine ⟨?_, ?_, IH3⟩
          · intro b c hmem
            rcases List.mem_cons.mp hmem with hhead | htail
            · exact HookEvent.noConfusion hhead
            · exact IH1 b c htail
          · intro b c hmem
            rcases List.mem_cons.mp hmem with hhead | htail
            · injection hhead with hb hc
              subst hb
              exact heq
            · exact IH2 b c htail
      · simp only [decorateGraphemeLoop, Nat.compare_eq_gt.mpr hgt] at h
        simp only [Option.some_inj, Prod.mk.injEq] at h
        obtain ⟨rfl, rfl, rfl, rfl⟩ := h
        exact ⟨fun b c hmem => absurd hmem (List.not_mem_nil _),
          fun b c hmem => absurd hmem (List.not_mem_nil _), hgt⟩
    · intro hgt _
      simp [decorateGraphemeLoop, Nat.compare_eq_gt.mpr hgt]

theorem decorate_grapheme_loop_hook_on_equality_witness :
    (∀ b c, HookEvent.skip b c ∈ [HookEvent.skip 0 5, HookEvent.hook 5 USIZE_MAX] →
      b < 5) ∧
    (∀ b c, HookEvent.hook b c ∈ [HookEvent.skip 0 5, HookEvent.hook 5 USIZE_MAX] →
      b = 5) ∧
    5 < USIZE_MAX :=
  (decorate_grapheme_loop_hook_on_equality Cursor.impl sampleGrapheme 3
    sampleCursor sampleRenderer 0).1 sampleCursor sampleRenderer USIZE_MAX
    [HookEvent.skip 0 5, HookEvent.hook 5 USIZE_MAX] rfl

/-- When every hook call strictly advances the anchor, the comparison
loop succeeds within `char_idx + 2 - anchor` iterations (stated with the
fuel/anchor invariant used by the induction). -/
lemma decorateGraphemeLoop_isSome_of_progress {σ : Type}
    (impl : DecorationImpl σ) (g : FormattedGrapheme)
    (Hskip : ∀ (s : σ) (a : Nat), a < g.char_idx →
      a < (impl.skip_concealed_anchor s g.char_idx).2)
    (Hhook : ∀ (s : σ) (r : TextRenderer),
      g.char_idx < (impl.decorate_grapheme s r g).2.2) :
    ∀ (fuel : Nat) (s : σ) (r : TextRenderer) (anchor : Nat),
      g.char_idx + 2 ≤ fuel + anchor → 1 ≤ fuel →
      (decorateGraphemeLoop impl g fuel s r anchor).isSome = true := by
  intro fuel
  induction fuel with
  | zero => intro s r anchor _ h1; exact absurd h1 (by omega)
  | succ n ih =>
    intro s r anchor hinv _
    rcases Nat.lt_trichotomy anchor g.char_idx with hlt | heq | hgt
    · have hadv := Hskip s anchor hlt
      simp only [decorateGraphemeLoop, Nat.compare_eq_lt.mpr hlt]
      have := ih (impl.skip_concealed_anchor s g.char_idx).1 r
        (impl.skip_concealed_anchor s g.char_idx).2 (by omega) (by omega)
      cases hrec : decorateGraphemeLoop impl g n
          (impl.skip_concealed_anchor s g.char_idx).1 r
          (impl.skip_concealed_anchor s g.char_idx).2 with
      | none => rw [hrec] at this; simp at this
      | some q => obtain ⟨s0, r0, a0, evs0⟩ := q; simp [hrec]
    · have hadv := Hhook s r
      simp only [decorateGraphemeLoop, Nat.compare_eq_eq.mpr heq]
      have := ih (impl.decorate_grapheme s r g).1 (impl.decorate_grapheme s r g).2.1
        (impl.decorate_grapheme s r g).2.2 (by omega) (by omega)
      cases hrec : decorateGraphemeLoop impl g n
          (impl.decorate_grapheme s r g).1
          (impl.decorate_grapheme s r g).2.1
          (impl.decorate_grapheme s r g).2.2 with
      | none => rw [hrec] at this; simp at this
      | some q => obtain ⟨s0, r0, a0, evs0⟩ := q; simp [hrec]
    · simp [decorateGraphemeLoop, Nat.compare_eq_gt.mpr hgt]

/-- C6: Under the precondition that every `skip_concealed_anchor` and
`decorate_grapheme` call strictly advances the decoration's anchor, the
per-decoration comparison loop of `DecorationManager::decorate_grapheme`
terminates for every grapheme: fuel `char_idx + 2` always suffices, from
any starting anchor. -/
theorem decorate_grapheme_loop_terminates {σ : Type}
    (impl : DecorationImpl σ) (g : FormattedGrapheme)
    (Hskip : ∀ (s : σ) (a : Nat), a < g.char_idx →
      a < (impl.skip_concealed_anchor s g.char_idx).2)
    (Hhook : ∀ (s : σ) (r : TextRenderer),
      g.char_idx < (impl.decorate_grapheme s r g).2.2)
    (s : σ) (r : TextRenderer) (anchor : Nat) :
    (decorateGraphemeLoop impl g (g.char_idx + 2) s r anchor).isSome = true :=
  decorateGraphemeLoop_isSome_of_progress impl g Hskip Hhook
    (g.char_idx + 2) s r anchor (by omega) (by omega)

theorem decorate_grapheme_loop_terminates_witness :
    (decorateGraphemeLoop Cursor.impl sampleGrapheme
      (sampleGrapheme.char_idx + 2) sampleCursor sampleRenderer 0).isSome = true :=
  decorate_grapheme_loop_terminates Cursor.impl sampleGrapheme
    (fun s a ha => by
      have h64 : (5 : Nat) ≤ USIZE_MAX := by norm_num [USIZE_MAX]
      simp only [Cursor.impl, sampleGrapheme] at ha ⊢
      unfold Cursor.reset_pos
      split <;> omega)
    (fun s r => by
      have h64 : (5 : Nat) < USIZE_MAX := by norm_num [USIZE_MAX]
      simp only [Cursor.impl, sampleGrapheme]
      unfold Cursor.decorate_grapheme
      split <;> simpa using h64)
    sampleCursor sampleRenderer 0

/-- Every hook invocation recorded by the virtual-line loop satisfies the
viewport bound, whatever running offset the loop starts from. -/
lemma renderVirtLinesGo_calls_bounded (pos : LinePos) :
    ∀ (entries : List (BoxedDecoration × Nat)) (r : TextRenderer) (v : Nat),
      ∀ c ∈ (renderVirtLinesGo pos entries r v).2.2,
        pos.visual_line + c.virt_off < c.height := by
  intro entries
  induction entries with
  | nil => intro r v c hc; simp [renderVirtLinesGo] at hc
  | cons e rest ih =>
    intro r v c hc
    simp only [renderVirtLinesGo] at hc
    by_cases h : r.viewport_height ≤ pos.visual_line + v
    · rw [if_pos h] at hc
      simp at hc
    · rw [if_neg h] at hc
      rcases List.mem_cons.mp hc with hhead | htail
      · subst hhead
        exact Nat.lt_of_not_le h
      · exact ih _ _ c htail

/-- When the running offset already violates the viewport bound, the loop
invokes nothing and leaves the registry and renderer untouched. -/
lemma renderVirtLinesGo_skips (pos : LinePos)
    (entries : List (BoxedDecoration × Nat)) (r : TextRenderer) (v : Nat)
    (h : r.viewport_height ≤ pos.visual_line + v) :
    renderVirtLinesGo pos entries r v = (entries, r, []) := by
  cases entries with
  | nil => simp [renderVirtLinesGo]
  | cons e rest => simp [renderVirtLinesGo, if_pos h]

/-- C3: In `DecorationManager::render_virtual_lines` (running offset
starting at 1), a decoration's `render_virt_lines` hook is never invoked
with an offset such that `pos.visual_line + virt_off >=
renderer.viewport.height`, and as soon as that bound is reached the
remaining decorations are skipped with everything left untouched. -/
theorem render_virtual_lines_respects_viewport (pos : LinePos)
    (entries : List (BoxedDecoration × Nat)) (r : TextRenderer) :
    (∀ c ∈ (renderVirtLinesGo pos entries r 1).2.2,
      pos.visual_line + c.virt_off < c.height) ∧
    (∀ v, r.viewport_height ≤ pos.visual_line + v →
      renderVirtLinesGo pos entries r v = (entries, r, [])) :=
  ⟨renderVirtLinesGo_calls_bounded pos entries r 1,
    fun v h => renderVirtLinesGo_skips pos entries r v h⟩

theorem render_virtual_lines_respects_viewport_witness :
    (0 : Nat) + 1 < 10 :=
  (render_virtual_lines_respects_viewport ⟨0, 0⟩ sampleEntries sampleRenderer).1
    ⟨1, 10, 1⟩ (by decide)

/-- Each invocation recorded by the virtual-line loop receives an offset
equal to the starting offset plus the sum of the row counts returned by
the earlier invocations on the line. -/
lemma renderVirtLinesGo_offsets (pos : LinePos) :
    ∀ (entries : List (BoxedDecoration × Nat)) (r : TextRenderer) (v i : Nat),
      i < (renderVirtLinesGo pos entries r v).2.2.length →
      ((renderVirtLinesGo pos entries r v).2.2.getD i ⟨0, 0, 0⟩).virt_off =
        v + (((renderVirtLinesGo pos entries r v).2.2.take i).map
          VirtCall.returned).sum := by
  intro entries
  induction entries with
  | nil => intro r v i hi; simp [renderVirtLinesGo] at hi
  | cons e rest ih =>
    intro r v i hi
    by_cases h : r.viewport_height ≤ pos.visual_line + v
    · rw [renderVirtLinesGo, if_pos h] at hi
      simp at hi
    · rw [renderVirtLinesGo, if_neg h] at hi ⊢
      cases i with
      | zero => simp
      | succ j =>
        simp only [List.getD_cons_succ, List.take_succ_cons, List.map_cons,
          List.sum_cons]
        simp only [List.length_cons, Nat.succ_lt_succ_iff] at hi
        rw [ih _ _ j hi]
        omega

/-- C4: In `DecorationManager::render_virtual_lines` the running offset
starts at 1 (row offset 0, the text line itself, is never given to
virtual content), and each invoked decoration receives a `virt_off` equal
to 1 plus the sum of the row counts returned by all earlier invoked
decorations on that line — so a later decoration's virtual rows begin
strictly after all rows of an earlier one that drew its allotment. -/
theorem render_virtual_lines_offsets_stack (pos : LinePos)
    (entries : List (BoxedDecoration × Nat)) (r : TextRenderer) (i : Nat)
    (hi : i < (renderVirtLinesGo pos entries r 1).2.2.length) :
    ((renderVirtLinesGo pos entries r 1).2.2.getD i ⟨0, 0, 0⟩).virt_off =
      1 + (((renderVirtLinesGo pos entries r 1).2.2.take i).map
        VirtCall.returned).sum :=
  renderVirtLinesGo_offsets pos entries r 1 i hi

theorem render_virtual_lines_offsets_stack_witness :
    ((renderVirtLinesGo ⟨0, 0⟩ sampleEntries sampleRenderer 1).2.2.getD 1
      ⟨0, 0, 0⟩).virt_off = 2 :=
  render_virtual_lines_offsets_stack ⟨0, 0⟩ sampleEntries sampleRenderer 1
    (by decide)

/-- C10: `CopilotDecoration::render_virt_lines` counts the suggestion's
trailing lines before rendering them, and (on the target row, when the
count fits in `u16`) returns exactly the number of lines after the first
— the number of newline separators — independent of the renderer state
and of the `virt_off` argument, both of which are universally quantified
here and absent from the right-hand side. -/
theorem copilot_render_virt_lines_count (d : CopilotDecoration)
    (r : TextRenderer) (pos : LinePos) (virt_off : Nat)
    (hrow : pos.doc_line = d.row)
    (hsmall : (splitLines d.text).length - 1 < 2 ^ 16) :
    (CopilotDecoration.render_virt_lines d r pos virt_off).2 =
      (splitLines d.text).length - 1 := by
  norm_num at hsmall
  simp only [CopilotDecoration.render_virt_lines, hrow, ne_eq, not_true_eq_false,
    if_false]
  simp [toU16, Nat.mod_eq_of_lt hsmall]

theorem copilot_render_virt_lines_count_witness :
    (CopilotDecoration.render_virt_lines sampleCopilot sampleRenderer
      ⟨0, 0⟩ 2).2 = 1 :=
  copilot_render_virt_lines_count sampleCopilot sampleRenderer ⟨0, 0⟩ 2 rfl
    (by decide)

/-- C2 fails on the code: with the suggestion `"a\nb"` anchored at row 0
and `virt_off = 2`, `CopilotDecoration::render_virt_lines` draws the
second suggestion line at row `visual_line + visual_pos.row + idx = 1`,
ignoring the `virt_off` argument entirely, whereas the claim (and the
`Decoration` trait's own documentation of the `virt_off` protocol)
requires row `visual_line + virt_off + (line_index - 1) = 2`. -/
theorem copilot_render_virt_lines_ignores_virt_off :
    (CopilotDecoration.render_virt_lines sampleCopilot sampleRenderer
      ⟨0, 0⟩ 2).1.drawn = [⟨'b', 0, 1, 0⟩] ∧ (1 : Nat) ≠ 0 + 2 + (1 - 1) :=
  ⟨rfl, by decide⟩

/-- The grapheme-drawing fold of `CopilotDecoration::decorate_line`
appends exactly the draw calls for the graphemes at or past the target
column. -/
lemma copilot_decorate_line_foldl (d : CopilotDecoration) (pos : LinePos) :
    ∀ (gs : List FormattedGrapheme) (r : TextRenderer),
      (gs.foldl
        (fun racc g =>
          if g.char_idx < d.col then racc
          else racc.draw_decoration_grapheme g.raw d.style
            (pos.visual_line + toU16 g.visual_pos.row) (toU16 g.visual_pos.col))
        r).drawn =
      r.drawn ++ (gs.filter (fun g => d.col ≤ g.char_idx)).map
        (fun g => ⟨g.raw, d.style, pos.visual_line + toU16 g.visual_pos.row,
          toU16 g.visual_pos.col⟩) := by
  intro gs
  induction gs with
  | nil => intro r; simp
  | cons g gs ih =>
    intro r
    simp only [List.foldl_cons, List.filter_cons]
    by_cases h : g.char_idx < d.col
    · rw [if_pos h]
      have hfalse : decide (d.col ≤ g.char_idx) = false := by
        simp
        omega
      rw [hfalse]
      simp only [Bool.false_eq_true, if_false]
      exact ih r
    · rw [if_neg h]
      have htrue : decide (d.col ≤ g.char_idx) = true := by
        simp
        omega
      rw [htrue]
      simp only [if_true]
      rw [ih]
      simp [TextRenderer.draw_decoration_grapheme]

/-- C8: When `pos.doc_line` differs from the target row,
`CopilotDecoration::decorate_line` draws nothing; otherwise it reformats
only the first line of the suggestion text at the stored viewport width
and draws exactly those resulting graphemes whose character index is at
least the target column, at the current visual line (the hypothesis
states that the reformatted first line occupies a single visual row). -/
theorem copilot_decorate_line_ghost_text (d : CopilotDecoration)
    (r : TextRenderer) (pos : LinePos)
    (hfit : ∀ g ∈ DocumentFormatter.format ⟨d.view_width⟩
      ((splitLines d.text).headD []), g.visual_pos.row = 0) :
    (pos.doc_line ≠ d.row → CopilotDecoration.decorate_line d r pos = r) ∧
    (pos.doc_line = d.row →
      (CopilotDecoration.decorate_line d r pos).drawn =
        r.drawn ++
          ((DocumentFormatter.format ⟨d.view_width⟩
              ((splitLines d.text).headD [])).filter
            (fun g => d.col ≤ g.char_idx)).map
            (fun g => ⟨g.raw, d.style, pos.visual_line,
              toU16 g.visual_pos.col⟩)) := by
  constructor
  · intro h
    rw [CopilotDecoration.decorate_line, if_pos (Ne.symm h)]
  · intro h
    rw [CopilotDecoration.decorate_line, if_neg (by simp [h])]
    rw [copilot_decorate_line_foldl]
    congr 1
    apply List.map_congr_left
    intro g hg
    have hrow : g.visual_pos.row = 0 := hfit g (List.mem_filter.mp hg).1
    simp [hrow, toU16]

theorem copilot_decorate_line_ghost_text_witness :
    (CopilotDecoration.decorate_line sampleCopilot sampleRenderer
      ⟨0, 4⟩).drawn = [⟨'a', 0, 4, 0⟩] :=
  (copilot_decorate_line_ghost_text sampleCopilot sampleRenderer ⟨0, 4⟩
    (by decide)).2 rfl

end HelixTextDecorations
